import Mathlib

/-!
Verification development for the UML/SQL bidirectional converter core
(`src/app.py`).  The Python source is shallowly embedded: element trees
become an inductive type, Python dicts become association lists with
insert-or-update semantics, fallible parsing becomes `Except`/`Option`.
-/

namespace UmlSql

/-- ASCII whitespace, matching Python's `\s` regex class and `str.strip()`. -/
def isPyWs (c : Char) : Bool :=
  c = ' ' || c = '\t' || c = '\n' || c = '\r' || c = '\x0b' || c = '\x0c'

/-- `startsWithChars p s` : `p` is a leading run of `s`. -/
def startsWithChars : List Char → List Char → Bool
  | [], _ => true
  | _ :: _, [] => false
  | a :: ps, b :: ss => a == b && startsWithChars ps ss

/-- `hasSubChars p s` : `p` occurs contiguously inside `s`
(Python's `p in s` on strings). -/
def hasSubChars (p : List Char) : List Char → Bool
  | [] => p.isEmpty
  | c :: rest => startsWithChars p (c :: rest) || hasSubChars p rest

/-- Python's substring test `pat in s`. -/
def hasSub (s pat : String) : Bool := hasSubChars pat.data s.data

/-- Python's `str.endswith`. -/
def strEndsWith (s suffx : String) : Bool :=
  startsWithChars suffx.data.reverse s.data.reverse

/-- Python's `str.lower()` (ASCII-relevant part). -/
def lowerStr (s : String) : String := ⟨s.data.map Char.toLower⟩

/-- Python's `str.upper()` (ASCII-relevant part). -/
def upperStr (s : String) : String := ⟨s.data.map Char.toUpper⟩

/-- An element tree, as produced by the markup parser the source builds on
(`tag`, attribute dictionary, child elements in document order). -/
inductive XMLElem where
  | mk (tag : String) (attribs : List (String × String)) (children : List XMLElem)

def XMLElem.tag : XMLElem → String
  | .mk t _ _ => t

def XMLElem.attribs : XMLElem → List (String × String)
  | .mk _ a _ => a

def XMLElem.children : XMLElem → List XMLElem
  | .mk _ _ c => c

mutual
/-- `elem.iter()` : the element followed by all descendants, document order. -/
def iterAll : XMLElem → List XMLElem
  | .mk t a cs => .mk t a cs :: iterChildren cs

def iterChildren : List XMLElem → List XMLElem
  | [] => []
  | e :: es => iterAll e ++ iterChildren es
end

/-- Attribute dictionary lookup (`elem.attrib.get(k)`). -/
def alookup (d : List (String × String)) (k : String) : Option String :=
  (d.find? (fun p => p.1 == k)).map (·.2)

/-- Attribute lookup with default (`elem.attrib.get(k, dflt)`). -/
def alookupD (d : List (String × String)) (k : String) (dflt : String) : String :=
  match alookup d k with
  | some v => v
  | none => dflt

/-- Python `a or b` on optional strings: the empty string is falsy. -/
def pyOr : Option String → Option String → Option String
  | some s, b => if s = "" then b else some s
  | none, b => b

/-- Python truthiness of an optional string (`if not x`). -/
def truthy : Option String → Bool
  | some s => s ≠ ""
  | none => false

def XMI_NAMESPACE : String := "http://schema.omg.org/spec/XMI/2.1"

/-- `get_attrib(elem, name)` from the source: the namespace-qualified
attribute wins, falling back (also on an empty value) to the bare name. -/
def getAttrib (e : XMLElem) (n : String) : Option String :=
  pyOr (alookup e.attribs ("\x7b" ++ XMI_NAMESPACE ++ "\x7d" ++ n)) (alookup e.attribs n)

/-- `elem.findall(tag)` : direct children with exactly this tag. -/
def findallTag (e : XMLElem) (t : String) : List XMLElem :=
  e.children.filter (fun c => c.tag == t)

/-- Python dict assignment `d[k] = v`: updates in place on an existing key,
otherwise appends (insertion order preserved). -/
def dictInsert (d : List (String × String)) (k v : String) : List (String × String) :=
  if d.any (fun p => p.1 == k) then
    d.map (fun p => if p.1 == k then (k, v) else p)
  else
    d ++ [(k, v)]

/-- Same, for the `classes` dict (name → attribute list). -/
def dictInsertA (d : List (String × List (String × String))) (k : String)
    (v : List (String × String)) : List (String × List (String × String)) :=
  if d.any (fun p => p.1 == k) then
    d.map (fun p => if p.1 == k then (k, v) else p)
  else
    d ++ [(k, v)]

/-- Python `str.isdigit()` (ASCII-relevant part): nonempty, all digits. -/
def isdigitStr (s : String) : Bool :=
  !s.data.isEmpty && s.data.all Char.isDigit

/-- Digit run to a natural number. -/
def digitsToNat : List Char → Nat
  | cs => cs.foldl (fun acc c => 10 * acc + (c.toNat - '0'.toNat)) 0

/-- Python `int(s)` (ASCII-relevant part): optional surrounding whitespace,
optional sign, then one or more decimal digits; anything else raises. -/
def pyInt (s : String) : Option Int :=
  let cs := (s.data.dropWhile isPyWs).reverse.dropWhile isPyWs |>.reverse
  match cs with
  | [] => none
  | '+' :: ds => if !ds.isEmpty && ds.all Char.isDigit then some (digitsToNat ds) else none
  | '-' :: ds => if !ds.isEmpty && ds.all Char.isDigit then some (-(digitsToNat ds : Int)) else none
  | ds => if ds.all Char.isDigit then some (digitsToNat ds) else none

/-- `TYPE_MAPPING.get(t, 'VARCHAR(255)')`. -/
def typeMappingGet (t : String) : String :=
  if t = "String" then "VARCHAR(255)"
  else if t = "Integer" then "INT"
  else if t = "Boolean" then "BOOLEAN"
  else if t = "Float" then "FLOAT"
  else if t = "Double" then "DOUBLE"
  else if t = "Long" then "BIGINT"
  else if t = "Date" then "DATE"
  else "VARCHAR(255)"

/-- Line 50: `TYPE_MAPPING.get(attr_type, 'VARCHAR(255)') if attr_type else 'VARCHAR(255)'`. -/
def mapType : Option String → String
  | none => "VARCHAR(255)"
  | some t => if t = "" then "VARCHAR(255)" else typeMappingGet t

/-- Lines 57-61: mark an `id`-named attribute lacking the primary-key
marker; leave every other attribute unchanged. -/
def markIdPk (a : String × String) : String × String :=
  if lowerStr a.1 == "id" && !hasSub (lowerStr a.2) "primary key" then
    (a.1, a.2 ++ " PRIMARY KEY")
  else a

/-- Lines 53-62 of `parse_classes`: inject or mark the `id` primary key. -/
def ensureId (attrs : List (String × String)) : List (String × String) :=
  if !attrs.any (fun a => lowerStr a.1 == "id") then
    ("id", "INT PRIMARY KEY") :: attrs
  else
    attrs.map markIdPk

/-- Lines 46-52: extract the raw attribute list of one class element. -/
def rawClassAttrs (e : XMLElem) : List (String × String) :=
  (findallTag e "ownedAttribute").foldl (fun acc attr =>
    let attrName := alookup attr.attribs "name"
    let attrType := alookup attr.attribs "type"
    let sqlType := mapType attrType
    match attrName with
    | some nm => if nm = "" then acc else acc ++ [(nm, sqlType)]
    | none => acc) []

/-- State built by `parse_classes`: `class_ids` (id → name) and
`classes` (name → attribute list), both insertion-ordered dicts. -/
structure ClassState where
  classIds : List (String × String)
  classes : List (String × List (String × String))

/-- One `parse_classes` loop iteration (lines 36-63). -/
def parseClassesStep (st : ClassState) (e : XMLElem) : ClassState :=
  if strEndsWith e.tag "packagedElement" && (getAttrib e "type" == some "uml:Class") then
    match getAttrib e "id", alookup e.attribs "name" with
    | some cid, some cname =>
      if cid = "" || cname = "" then st
      else
        let attrs := ensureId (rawClassAttrs e)
        { classIds := dictInsert st.classIds cid cname,
          classes := dictInsertA st.classes cname attrs }
    | _, _ => st
  else st

/-- `UMLParser.parse_classes` over the whole element tree. -/
def parseClasses (root : XMLElem) : ClassState :=
  (iterAll root).foldl parseClassesStep ⟨[], []⟩

/-- One parsed association, mirroring the 8-tuple appended at line 88. -/
structure AssocTuple where
  t1 : Option String
  n1 : String
  l1 : Int
  u1 : Int
  t2 : Option String
  n2 : String
  l2 : Int
  u2 : Int

/-- Python `x or 'refN'` for an end's role name (empty/absent → default). -/
def pyOrStr (o : Option String) (dflt : String) : String :=
  match o with
  | some s => if s = "" then dflt else s
  | none => dflt

/-- Lines 76-88: read both ends of an association element; `int()` on the
`lower` attribute raises on a non-integer string, aborting the conversion. -/
def readAssocEnds (e1 e2 : XMLElem) : Except String AssocTuple :=
  let type1 := alookup e1.attribs "type"
  let name1 := pyOrStr (alookup e1.attribs "name") "ref1"
  match pyInt (alookupD e1.attribs "lower" "0") with
  | none => .error "invalid literal for int() with base 10"
  | some lower1 =>
    let upper1raw := alookupD e1.attribs "upper" "1"
    let upper1 : Int := if isdigitStr upper1raw then (digitsToNat upper1raw.data : Int) else -1
    let type2 := alookup e2.attribs "type"
    let name2 := pyOrStr (alookup e2.attribs "name") "ref2"
    match pyInt (alookupD e2.attribs "lower" "0") with
    | none => .error "invalid literal for int() with base 10"
    | some lower2 =>
      let upper2raw := alookupD e2.attribs "upper" "1"
      let upper2 : Int := if isdigitStr upper2raw then (digitsToNat upper2raw.data : Int) else -1
      .ok ⟨type1, name1, lower1, upper1, type2, name2, lower2, upper2⟩

/-- One `parse_associations` loop iteration (lines 66-88): non-association
elements and associations without exactly two `ownedEnd` children are
skipped; a bad `lower` bound propagates as an exception. -/
def processAssocElem (e : XMLElem) : Except String (Option AssocTuple) :=
  if strEndsWith e.tag "packagedElement" && (getAttrib e "type" == some "uml:Association") then
    match findallTag e "ownedEnd" with
    | [e1, e2] => (readAssocEnds e1 e2).map some
    | _ => .ok none
  else .ok none

/-- Accumulate one element's contribution to the association list. -/
def assocStep (acc : List AssocTuple) (e : XMLElem) : Except String (List AssocTuple) := do
  match ← processAssocElem e with
  | some a => pure (acc ++ [a])
  | none => pure acc

/-- `UMLParser.parse_associations`: the first exception aborts the scan. -/
def parseAssociations (root : XMLElem) : Except String (List AssocTuple) :=
  (iterAll root).foldlM assocStep []

/-- Line 108: the many-to-many test (`-1` is the unbounded sentinel). -/
def manyToMany (u1 u2 : Int) : Bool :=
  (u1 == -1 && u2 == -1) || (u1 == -1 && u2 > 1) || (u2 == -1 && u1 > 1)

/-- Line 109: the one-to-many test. -/
def oneToMany (u1 u2 : Int) : Bool :=
  (u1 == 1 && (u2 == -1 || u2 > 1)) || (u2 == 1 && (u1 == -1 || u1 > 1))

/-- `self.class_ids.get(t)` where `t` may be `None`. -/
def pyLookup (d : List (String × String)) (k : Option String) : Option String :=
  k.bind (alookup d)

/-- Lines 93-100: one `CREATE TABLE` statement. -/
def createTableSQL (className : String) (attrs : List (String × String)) : String :=
  let attrLines := attrs.map (fun a =>
    let notNull := if !hasSub (upperStr a.2) "PRIMARY KEY" then " NOT NULL" else ""
    "  `" ++ a.1 ++ "` " ++ a.2 ++ notNull)
  "CREATE TABLE `" ++ className ++ "` (" ++ "\n" ++
    String.intercalate ",\n" attrLines ++ "\n" ++ ");"

/-- Lines 132 and 140: `ALTER TABLE ... ADD COLUMN ... INT;`. -/
def alterAddCol (t col : String) : String :=
  "ALTER TABLE `" ++ t ++ "` ADD COLUMN `" ++ col ++ "` INT;"

/-- Lines 133-135 and 141-143: `ALTER TABLE ... ADD FOREIGN KEY ...`. -/
def alterAddFK (t col ref : String) : String :=
  "ALTER TABLE `" ++ t ++ "` ADD FOREIGN KEY (`" ++ col ++
    "`) REFERENCES `" ++ ref ++ "`(`id`);"

/-- Lines 111-120: the many-to-many join table statement. -/
def joinTableSQL (c1 c2 : String) : String :=
  let jt := c1 ++ "_" ++ c2 ++ "_join"
  "CREATE TABLE `" ++ jt ++ "` (" ++ "\n" ++
    "  `" ++ lowerStr c1 ++ "_id` INT NOT NULL," ++ "\n" ++
    "  `" ++ lowerStr c2 ++ "_id` INT NOT NULL," ++ "\n" ++
    "  PRIMARY KEY (`" ++ lowerStr c1 ++ "_id`, `" ++ lowerStr c2 ++ "_id`)," ++ "\n" ++
    "  FOREIGN KEY (`" ++ lowerStr c1 ++ "_id`) REFERENCES `" ++ c1 ++ "`(`id`)," ++ "\n" ++
    "  FOREIGN KEY (`" ++ lowerStr c2 ++ "_id`) REFERENCES `" ++ c2 ++ "`(`id`)" ++ "\n" ++
    ");"

/-- `f'{n}_id' if n else f'{c.lower()}_id'` — the role-name based column,
with the (dead, see `parse_associations` defaulting) class-name fallback. -/
def fkColName (n c : String) : String :=
  if n ≠ "" then n ++ "_id" else lowerStr c ++ "_id"

/-- Lines 102-143: the SQL statements contributed by one association. -/
def genAssocStatements (classIds : List (String × String)) (a : AssocTuple) : List String :=
  match pyLookup classIds a.t1, pyLookup classIds a.t2 with
  | some c1, some c2 =>
    if c1 = "" || c2 = "" then []
    else if manyToMany a.u1 a.u2 then [joinTableSQL c1 c2]
    else if oneToMany a.u1 a.u2 then
      if a.u1 == 1 then
        [alterAddCol c2 (fkColName a.n1 c1), alterAddFK c2 (fkColName a.n1 c1) c1]
      else
        [alterAddCol c1 (fkColName a.n2 c2), alterAddFK c1 (fkColName a.n2 c2) c2]
    else
      [alterAddCol c1 (fkColName a.n2 c2), alterAddFK c1 (fkColName a.n2 c2) c2]
  | _, _ => []

/-- `UMLParser.generate_sql` (lines 90-144). -/
def generateSql (st : ClassState) (assocs : List AssocTuple) : List String :=
  st.classes.map (fun p => createTableSQL p.1 p.2) ++
    assocs.flatMap (genAssocStatements st.classIds)

/-- `generate_sql_from_uml_content` on an already parsed tree, keeping the
statement list (the source joins it with blank lines). -/
def generateSqlFromUmlTree (root : XMLElem) : Except String (List String) := do
  let st := parseClasses root
  let assocs ← parseAssociations root
  pure (generateSql st assocs)

/-- The spec's Author/Book scenario: ends (Author, upper 1) and
(Book, upper unbounded), no role names on either end. -/
def authorBookUml : XMLElem :=
  .mk "uml:Model" []
    [ .mk "packagedElement" [("type", "uml:Class"), ("id", "id_author"), ("name", "Author")]
        [ .mk "ownedAttribute" [("name", "id"), ("type", "Integer")] []
        , .mk "ownedAttribute" [("name", "name"), ("type", "String")] [] ]
    , .mk "packagedElement" [("type", "uml:Class"), ("id", "id_book"), ("name", "Book")]
        [ .mk "ownedAttribute" [("name", "id"), ("type", "Integer")] []
        , .mk "ownedAttribute" [("name", "title"), ("type", "String")] [] ]
    , .mk "packagedElement" [("type", "uml:Association"), ("id", "as1")]
        [ .mk "ownedEnd" [("type", "id_author"), ("upper", "1")] []
        , .mk "ownedEnd" [("type", "id_book"), ("upper", "-1")] [] ] ]

/-- Case-insensitive literal match over chars, returning the remainder. -/
def matchCI : List Char → List Char → Option (List Char)
  | [], cs => some cs
  | _ :: _, [] => none
  | p :: ps, c :: cs => if p.toLower == c.toLower then matchCI ps cs else none

/-- One-or-more whitespace (regex `\s+`, greedy), returning the remainder. -/
def matchWsPlus : List Char → Option (List Char)
  | [] => none
  | c :: cs => if isPyWs c then some (cs.dropWhile isPyWs) else none

/-- Try the regex `\sPRIMARY\s+KEY|\sNOT\s+NULL` (ignore-case) at the head. -/
def tryRmAt : List Char → Option (List Char)
  | [] => none
  | c :: rest =>
    if isPyWs c then
      match (matchCI "PRIMARY".data rest).bind matchWsPlus |>.bind (matchCI "KEY".data) with
      | some r => some r
      | none => (matchCI "NOT".data rest).bind matchWsPlus |>.bind (matchCI "NULL".data)
    else none

/-- Fuelled scan applying the substitution at every leftmost match. -/
def rmGo : Nat → List Char → List Char
  | 0, cs => cs
  | _ + 1, [] => []
  | f + 1, c :: cs =>
    match tryRmAt (c :: cs) with
    | some rest => rmGo f rest
    | none => c :: rmGo f cs

/-- Line 266: `re.sub(r'\sPRIMARY\s+KEY|\sNOT\s+NULL', '', sql_type, flags=I)`. -/
def removePkNotNull (s : String) : String := ⟨rmGo s.data.length s.data⟩

/-- A `column` element of the schema markup. -/
structure SchemaColumn where
  name : String
  ctype : String
  primaryKey : Bool
  nullable : Bool
deriving DecidableEq

/-- A `foreignKey` element with its `reference` child. -/
structure SchemaFK where
  targetTable : String
  localColumn : String
  foreignColumn : String
deriving DecidableEq

/-- A `table` element of the schema markup. -/
structure SchemaTable where
  name : String
  columns : List SchemaColumn
  fks : List SchemaFK
deriving DecidableEq

/-- Lines 260-273: a table element derived from one class. -/
def tableFromClass (p : String × List (String × String)) : SchemaTable :=
  ⟨p.1,
    p.2.map (fun a =>
      let isPrimary := hasSub (upperStr a.2) "PRIMARY KEY"
      let isNullable := !hasSub (upperStr a.2) "NOT NULL" && !isPrimary
      ⟨a.1, removePkNotNull a.2, isPrimary, isNullable⟩),
    []⟩

/-- Lines 285-320: the join table emitted for a many-to-many association. -/
def joinTableXml (c1 c2 : String) : SchemaTable :=
  ⟨c1 ++ "_" ++ c2 ++ "_join",
    [⟨lowerStr c1 ++ "_id", "INT", true, false⟩, ⟨lowerStr c2 ++ "_id", "INT", true, false⟩],
    [⟨c1, lowerStr c1 ++ "_id", "id"⟩, ⟨c2, lowerStr c2 ++ "_id", "id"⟩]⟩

/-- Lines 342-354: append the nullable INT foreign-key column and the
foreign-key element to one table. -/
def addFkTo (t : SchemaTable) (col ref : String) : SchemaTable :=
  { t with columns := t.columns ++ [⟨col, "INT", false, true⟩],
           fks := t.fks ++ [⟨ref, col, "id"⟩] }

/-- Lines 339-355: walk the table list, updating the first name match only. -/
def updateDbAddFK : List SchemaTable → String → String → String → List SchemaTable
  | [], _, _, _ => []
  | t :: ts, ft, col, ref =>
    if t.name = ft then addFkTo t col ref :: ts
    else t :: updateDbAddFK ts ft col ref

/-- Lines 276-355: effect of one association on the database tree. -/
def genAssocXml (classIds : List (String × String)) (db : List SchemaTable)
    (a : AssocTuple) : List SchemaTable :=
  match pyLookup classIds a.t1, pyLookup classIds a.t2 with
  | some c1, some c2 =>
    if c1 = "" || c2 = "" then db
    else if manyToMany a.u1 a.u2 then db ++ [joinTableXml c1 c2]
    else
      if oneToMany a.u1 a.u2 then
        if a.u1 == 1 then updateDbAddFK db c2 (fkColName a.n1 c1) c1
        else updateDbAddFK db c1 (fkColName a.n2 c2) c2
      else updateDbAddFK db c1 (fkColName a.n2 c2) c2
  | _, _ => db

/-- `UMLSchemaParser.generate_sql_xml` (lines 255-360), kept as the list of
table elements under the `database` root. -/
def generateSqlXmlTables (st : ClassState) (assocs : List AssocTuple) : List SchemaTable :=
  assocs.foldl (genAssocXml st.classIds) (st.classes.map tableFromClass)

/-- `generate_sql_xml_from_uml_content` on an already parsed tree. -/
def generateSqlXmlFromUmlTree (root : XMLElem) : Except String (List SchemaTable) := do
  let st := parseClasses root
  let assocs ← parseAssociations root
  pure (generateSqlXmlTables st assocs)

/-! ### SQL DDL → class model (`generate_uml_from_sql`) -/

/-- Lines 197-208: classify an (already upper-cased) SQL column type. -/
def classifyColType (ct : String) : String :=
  if hasSub ct "INT" then "Integer"
  else if hasSub ct "CHAR" || hasSub ct "TEXT" || hasSub ct "VARCHAR" then "String"
  else if hasSub ct "FLOAT" || hasSub ct "DOUBLE" || hasSub ct "REAL" then "Float"
  else if hasSub ct "BOOLEAN" then "Boolean"
  else if hasSub ct "DATE" then "Date"
  else "String"

/-- The DDL path's type classification: line 196 upper-cases the token
(`col_type = parts[1].upper()`) before the substring tests. -/
def toPrimDDL (raw : String) : String := classifyColType (upperStr raw)

/-- Lines 406-417: the schema-markup path's classification, applied to the
raw `type` attribute string (no upper-casing on this path). -/
def classifyColTypeXml (ct : String) : String :=
  if hasSub ct "INT" || hasSub ct "BIGINT" then "Integer"
  else if hasSub ct "CHAR" || hasSub ct "TEXT" || hasSub ct "VARCHAR" then "String"
  else if hasSub ct "FLOAT" || hasSub ct "DOUBLE" || hasSub ct "REAL" then "Float"
  else if hasSub ct "BOOLEAN" then "Boolean"
  else if hasSub ct "DATE" then "Date"
  else "String"

/-- Lookahead of the split regex `,\s*(?![^()]*\))`: does a closing
parenthesis follow before any other parenthesis character? -/
def firstParenIsClose : List Char → Bool
  | [] => false
  | c :: cs => if c = '(' then false else if c = ')' then true else firstParenIsClose cs

/-- Python `str.strip('()')`: shave every leading/trailing paren character. -/
def stripParens (s : String) : String :=
  let isPar := fun c => c = '(' || c = ')'
  ⟨((s.data.dropWhile isPar).reverse.dropWhile isPar).reverse⟩

/-- `re.split(r',\s*(?![^()]*\))', s)`: split at a comma exactly when no
closing parenthesis follows it before an opening one; the separator also
swallows the whitespace after the comma.  The `Bool` records whether we are
inside that post-comma whitespace run. -/
def splitGo : Bool → List Char → List Char → List (List Char)
  | _, cur, [] => [cur.reverse]
  | skipping, cur, c :: rest =>
    if skipping && isPyWs c then splitGo true cur rest
    else if c = ',' && !firstParenIsClose rest then cur.reverse :: splitGo true [] rest
    else splitGo false (c :: cur) rest

/-- Line 191: the column-definition splitter. -/
def splitTopLevel (s : String) : List String :=
  (splitGo false [] s.data).map (fun cs => ⟨cs⟩)

/-- Lines 190-191: strip the group's parens, then split. -/
def colDefsOf (groupValue : String) : List String :=
  splitTopLevel (stripParens groupValue)

/-- Accumulating scan behind `pySplitWs`. -/
def splitWsGo (cur : List Char) : List Char → List (List Char)
  | [] => if cur.isEmpty then [] else [cur.reverse]
  | c :: rest =>
    if isPyWs c then
      if cur.isEmpty then splitWsGo [] rest
      else cur.reverse :: splitWsGo [] rest
    else splitWsGo (c :: cur) rest

/-- Python `str.split()` with no argument: maximal non-whitespace runs. -/
def pySplitWs (s : String) : List String :=
  (splitWsGo [] s.data).map (fun cs => ⟨cs⟩)

/-- Python `str.strip('`')`. -/
def stripBackticks (s : String) : String :=
  let isBt := fun c => c = '`'
  ⟨((s.data.dropWhile isBt).reverse.dropWhile isBt).reverse⟩

/-- Lines 192-214 (name/type part): the columns recovered from one
`CREATE TABLE` body (the group token's text, parens included). -/
def columnsOfBody (groupValue : String) : List (String × String) :=
  (colDefsOf groupValue).foldl (fun acc cd =>
    match pySplitWs cd with
    | p0 :: p1 :: _ =>
      if upperStr p0 ≠ "FOREIGN" then acc ++ [(stripBackticks p0, upperStr p1)]
      else acc
    | _ => acc) []

/-- One association end as written to the output markup. -/
structure UmlEnd where
  etype : String
  ename : String
  lowerB : String
  upperB : String
deriving DecidableEq

/-- One reconstructed association (its `ownedEnd` children, in order). -/
structure UmlAssoc where
  ends : List UmlEnd
deriving DecidableEq

/-- One `ALTER TABLE ... ADD FOREIGN KEY ... REFERENCES ...` regex match
(line 221): source table, source column, referenced table, referenced column. -/
structure FkMatch where
  srcTable : String
  srcCol : String
  refTable : String
  refCol : String

/-- Lines 222-246: the association built from one recovered foreign key,
provided both tables are known classes. -/
def ddlAssocFromMatch (classMap : List (String × String)) (m : FkMatch) : Option UmlAssoc :=
  if (classMap.any (fun p => p.1 == m.srcTable)) && (classMap.any (fun p => p.1 == m.refTable)) then
    match alookup classMap m.refTable, alookup classMap m.srcTable with
    | some refId, some srcId =>
      some ⟨[⟨refId, lowerStr m.refTable, "1", "1"⟩, ⟨srcId, lowerStr m.srcTable, "0", "-1"⟩]⟩
    | _, _ => none
  else none

/-- The DDL reader's second pass (lines 217-246) over the recovered
foreign-key matches. -/
def ddlSecondPass (classMap : List (String × String)) (ms : List FkMatch) : List UmlAssoc :=
  ms.foldl (fun acc m =>
    match ddlAssocFromMatch classMap m with
    | some a => acc ++ [a]
    | none => acc) []

/-! ### Schema markup → class model (`generate_uml_from_sql_xml`) -/

/-- Dict insert for the `class_map` (table name may be absent). -/
def dictInsertO (d : List (Option String × String)) (k : Option String) (v : String) :
    List (Option String × String) :=
  if d.any (fun p => p.1 == k) then
    d.map (fun p => if p.1 == k then (k, v) else p)
  else d ++ [(k, v)]

/-- `class_map.get(k)`. -/
def lookupO (d : List (Option String × String)) (k : Option String) : Option String :=
  (d.find? (fun p => p.1 == k)).map (·.2)

/-- Lines 387-391: table name → `class_{n}` identifier map. -/
def classMapXmlOf (root : XMLElem) : List (Option String × String) :=
  ((findallTag root "table").foldl
    (fun (st : List (Option String × String) × Nat) t =>
      (dictInsertO st.1 (alookup t.attribs "name") ("class_" ++ toString st.2), st.2 + 1))
    ([], 1)).1

/-- A reconstructed class (identifier, optional name, attributes as
optional name with primitive type tag). -/
structure UmlClassX where
  cid : String
  cnameX : Option String
  cattrs : List (Option String × String)
deriving DecidableEq

/-- Lines 401-423: a class's attributes from a table's `column` children;
a column without a `type` attribute makes `'INT' in col_type` raise. -/
def umlClassOfTable (cid : String) (t : XMLElem) : Except String UmlClassX := do
  let attrs ← (findallTag t "column").foldlM (fun acc col =>
    match alookup col.attribs "type" with
    | none => .error "argument of type 'NoneType' is not iterable"
    | some ct => pure (acc ++ [(alookup col.attribs "name", classifyColTypeXml ct)])) []
  pure ⟨cid, alookup t.attribs "name", attrs⟩

/-- First pass of `generate_uml_from_sql_xml` (lines 386-423). -/
def xmlFirstPass (root : XMLElem) : Except String (List UmlClassX) := do
  let st ← (findallTag root "table").foldlM
    (fun (st : List UmlClassX × Nat) t => do
      let c ← umlClassOfTable ("class_" ++ toString st.2) t
      pure (st.1 ++ [c], st.2 + 1))
    (([], 1) : List UmlClassX × Nat)
  pure st.1

/-- Lines 430-465: process one `foreignKey` element of a table.  A foreign
key whose two tables are known yields an association; if the `reference`
child is missing the already-created association element stays childless;
lower-casing an absent table name raises. -/
def fkAssocStep (cmap : List (Option String × String)) (tn : Option String)
    (srcId : Option String) (acc2 : List UmlAssoc) (fk : XMLElem) :
    Except String (List UmlAssoc) :=
  let tgt := alookup fk.attribs "targetTable"
  let tgtId := lookupO cmap tgt
  match srcId, tgtId with
  | some sid, some tid =>
    match (findallTag fk "reference").head? with
    | none => pure (acc2 ++ [(⟨[]⟩ : UmlAssoc)])
    | some _ =>
      match tgt, tn with
      | some tgtName, some tName =>
        pure (acc2 ++ [(⟨[⟨tid, lowerStr tgtName ++ "_ref", "1", "1"⟩,
                         ⟨sid, lowerStr tName ++ "_ref", "0", "-1"⟩]⟩ : UmlAssoc)])
      | _, _ => .error "AttributeError: NoneType has no attribute lower"
  | _, _ => pure acc2

/-- Lines 426-430: process all foreign keys of one table. -/
def tableAssocStep (cmap : List (Option String × String)) (acc : List UmlAssoc)
    (t : XMLElem) : Except String (List UmlAssoc) :=
  let tn := alookup t.attribs "name"
  (findallTag t "foreignKey").foldlM (fkAssocStep cmap tn (lookupO cmap tn)) acc

/-- Second pass of `generate_uml_from_sql_xml` (lines 426-465). -/
def xmlSecondPass (root : XMLElem) : Except String (List UmlAssoc) :=
  (findallTag root "table").foldlM (tableAssocStep (classMapXmlOf root)) []

/-- `generate_uml_from_sql_xml` on an already parsed schema tree. -/
def generateUmlFromSqlXmlTree (root : XMLElem) :
    Except String (List UmlClassX × List UmlAssoc) := do
  let cs ← xmlFirstPass root
  let as ← xmlSecondPass root
  pure (cs, as)

/-! ### Well-formedness of markup input

The three conversion entry points that read markup all call the markup
reader first (`ET.fromstring`): a document that is not well-formed raises
there, before any model is built.  `parseXML` models that reader's
well-formedness contract with an executable recursive-descent reader
(`none` = parse error raised). -/

/-- A character that may appear in a tag or attribute name. -/
def isNameChar (c : Char) : Bool :=
  !(isPyWs c) && c ≠ '<' && c ≠ '>' && c ≠ '/' && c ≠ '=' && c ≠ '"'

/-- Read attributes until `>` or `/>`; fail on anything malformed. -/
def pAttrs : Nat → List Char → Option (List (String × String) × List Char)
  | 0, _ => none
  | _ + 1, [] => none
  | f + 1, c :: cs =>
    if isPyWs c then pAttrs f cs
    else if c = '>' || c = '/' then some ([], c :: cs)
    else if isNameChar c then
      let nm := (c :: cs).takeWhile isNameChar
      let rest1 := (c :: cs).dropWhile isNameChar
      match rest1.dropWhile isPyWs with
      | '=' :: rest2 =>
        match rest2.dropWhile isPyWs with
        | '"' :: rest3 =>
          let v := rest3.takeWhile (fun d => d ≠ '"')
          match rest3.dropWhile (fun d => d ≠ '"') with
          | '"' :: rest4 =>
            match pAttrs f rest4 with
            | some (attrs, rest5) => some ((⟨nm⟩, ⟨v⟩) :: attrs, rest5)
            | none => none
          | _ => none
        | _ => none
      | _ => none
    else none

mutual
/-- Parse one element starting at `<`. -/
def pElem : Nat → List Char → Option (XMLElem × List Char)
  | 0, _ => none
  | f + 1, cs =>
    match cs with
    | '<' :: rest =>
      let nm := rest.takeWhile isNameChar
      if nm.isEmpty then none
      else
        match pAttrs (rest.length + 1) (rest.dropWhile isNameChar) with
        | some (attrs, '/' :: '>' :: rest2) => some (.mk ⟨nm⟩ attrs [], rest2)
        | some (attrs, '>' :: rest2) =>
          match pContent f ⟨nm⟩ rest2 with
          | some (kids, rest3) => some (.mk ⟨nm⟩ attrs kids, rest3)
          | none => none
        | _ => none
    | _ => none

/-- Parse child content up to the matching `</name>`. -/
def pContent : Nat → String → List Char → Option (List XMLElem × List Char)
  | 0, _, _ => none
  | f + 1, nm, cs =>
    match cs.dropWhile (fun c => c ≠ '<') with
    | '<' :: '/' :: rest =>
      let cnm := rest.takeWhile isNameChar
      if (⟨cnm⟩ : String) = nm then
        match (rest.dropWhile isNameChar).dropWhile isPyWs with
        | '>' :: rest2 => some ([], rest2)
        | _ => none
      else none
    | '<' :: rest =>
      match pElem f ('<' :: rest) with
      | some (child, rest2) =>
        match pContent f nm rest2 with
        | some (kids, rest3) => some (child :: kids, rest3)
        | none => none
      | none => none
    | _ => none
end

/-- `ET.fromstring`: one root element, nothing but whitespace around it. -/
def parseXML (s : String) : Option XMLElem :=
  match pElem (2 * s.data.length + 2) (s.data.dropWhile isPyWs) with
  | some (e, rest) => if (rest.dropWhile isPyWs).isEmpty then some e else none
  | none => none

/-- Entry point 1: exchange markup text → SQL DDL statements. -/
def umlToSqlScript (s : String) : Except String (List String) :=
  match parseXML s with
  | none => .error "XML parse error: input is not well-formed"
  | some root => generateSqlFromUmlTree root

/-- Entry point 3: exchange markup text → schema markup tables. -/
def umlToSchemaXml (s : String) : Except String (List SchemaTable) :=
  match parseXML s with
  | none => .error "XML parse error: input is not well-formed"
  | some root => generateSqlXmlFromUmlTree root

/-- Entry point 4: schema markup text → exchange markup model. -/
def schemaXmlToUml (s : String) : Except String (List UmlClassX × List UmlAssoc) :=
  match parseXML s with
  | none => .error "XML parse error: input is not well-formed"
  | some root => generateUmlFromSqlXmlTree root

/-- `true` exactly on a conversion that surfaced a failure. -/
def isError : Except String α → Bool
  | .error _ => true
  | .ok _ => false

/-- Canonical multiplicity shape of every reconstructed two-ended
association: referenced side `1..1`, referencing side `0..*`. -/
def canonEnds (a : UmlAssoc) : Prop :=
  ∀ e1 e2 : UmlEnd, a.ends = [e1, e2] →
    e1.lowerB = "1" ∧ e1.upperB = "1" ∧ e2.lowerB = "0" ∧ e2.upperB = "-1"

/-- A concrete schema-markup document with one foreign key. -/
def schemaXmlExample : XMLElem :=
  .mk "database" []
    [ .mk "table" [("name", "Author")]
        [ .mk "column" [("name", "id"), ("type", "INT")] [] ]
    , .mk "table" [("name", "Book")]
        [ .mk "column" [("name", "id"), ("type", "INT")] []
        , .mk "foreignKey" [("targetTable", "Author")]
            [ .mk "reference" [("localColumn", "author_id"), ("foreignColumn", "id")] [] ] ] ]

/-- Modelled from the spec: `toPrimitiveType` — case-insensitive substring
classification of a SQL column type string into a primitive type tag. -/
def specToPrim (sqlType : String) : String :=
  let u := upperStr sqlType
  if hasSub u "INT" then "Integer"
  else if hasSub u "CHAR" || hasSub u "TEXT" || hasSub u "VARCHAR" then "String"
  else if hasSub u "FLOAT" || hasSub u "DOUBLE" || hasSub u "REAL" then "Float"
  else if hasSub u "BOOLEAN" then "Boolean"
  else if hasSub u "DATE" then "Date"
  else "String"

/-- Number of split points the column splitter fires on. -/
def splitCount : List Char → Nat
  | [] => 0
  | c :: rest => (if c = ',' && !firstParenIsClose rest then 1 else 0) + splitCount rest

/-- An association element whose first end has a non-integer `lower`. -/
def badLowerAssoc : XMLElem :=
  .mk "packagedElement" [("type", "uml:Association")]
    [ .mk "ownedEnd" [("type", "a"), ("lower", "abc")] []
    , .mk "ownedEnd" [("type", "b")] [] ]

/-- A model containing `badLowerAssoc`. -/
def badLowerUml : XMLElem := .mk "uml:Model" [] [badLowerAssoc]

/-- An association element whose first end has a non-digit `upper`. -/
def starUpperAssoc : XMLElem :=
  .mk "packagedElement" [("type", "uml:Association")]
    [ .mk "ownedEnd" [("type", "a"), ("upper", "*")] []
    , .mk "ownedEnd" [("type", "b")] [] ]

/-! ### Helper lemmas -/

/-- The code's classification is mutually exclusive: a pair passing the
`one_to_many` test never passes the `many_to_many` test. -/
theorem otm_not_mtm (u1 u2 : Int) (h : oneToMany u1 u2 = true) :
    manyToMany u1 u2 = false := by
  simp only [oneToMany, manyToMany, Bool.or_eq_true, Bool.and_eq_true, beq_iff_eq,
    decide_eq_true_eq, Bool.or_eq_false_iff, Bool.and_eq_false_iff,
    beq_eq_false_iff_ne, decide_eq_false_iff_not] at h ⊢
  omega

/-! ### C1 -/

/-- C1: with the unbounded sentinel `-1`, the resolver classifies a pair of
upper bounds as many-to-many exactly when (both unbounded) or (one
unbounded and the other greater than 1); it lands in the one-to-many branch
exactly when exactly one side has upper bound 1 and the other side is
unbounded or greater than 1; and every remaining pair takes the default
branch, which emits the one-to-many statements with class 1's table
receiving the foreign key that references class 2's table. -/
theorem cardinality_resolver_classification :
    (∀ u1 u2 : Int,
      (manyToMany u1 u2 = true ↔
        (u1 = -1 ∧ u2 = -1) ∨ (u1 = -1 ∧ u2 > 1) ∨ (u2 = -1 ∧ u1 > 1)) ∧
      ((manyToMany u1 u2 = false ∧ oneToMany u1 u2 = true) ↔
        ((u1 = 1 ∧ u2 ≠ 1 ∧ (u2 = -1 ∨ u2 > 1)) ∨
         (u2 = 1 ∧ u1 ≠ 1 ∧ (u1 = -1 ∨ u1 > 1))))) ∧
    (∀ (ids : List (String × String)) (a : AssocTuple) (c1 c2 : String),
      pyLookup ids a.t1 = some c1 → pyLookup ids a.t2 = some c2 →
      c1 ≠ "" → c2 ≠ "" →
      manyToMany a.u1 a.u2 = false → oneToMany a.u1 a.u2 = false →
      genAssocStatements ids a =
        [alterAddCol c1 (fkColName a.n2 c2), alterAddFK c1 (fkColName a.n2 c2) c2]) := by
  constructor
  · intro u1 u2
    constructor
    · simp only [manyToMany, Bool.or_eq_true, Bool.and_eq_true, beq_iff_eq,
        decide_eq_true_eq]
      tauto
    · simp only [manyToMany, oneToMany, Bool.or_eq_true, Bool.and_eq_true, beq_iff_eq,
        decide_eq_true_eq, Bool.or_eq_false_iff, Bool.and_eq_false_iff,
        beq_eq_false_iff_ne, decide_eq_false_iff_not]
      omega
  · intro ids a c1 c2 h1 h2 hc1 hc2 hm ho
    simp only [genAssocStatements, h1, h2, hm, ho, hc1, hc2]
    simp [hc1, hc2]

/-- Witness for C1 at the concrete 1–1 pair (default bucket). -/
theorem cardinality_resolver_classification_witness :
    genAssocStatements [("i1", "A"), ("i2", "B")]
        ⟨some "i1", "ref1", 0, 1, some "i2", "ref2", 0, 1⟩ =
      [alterAddCol "A" (fkColName "ref2" "B"), alterAddFK "A" (fkColName "ref2" "B") "B"] :=
  cardinality_resolver_classification.2 [("i1", "A"), ("i2", "B")]
    ⟨some "i1", "ref1", 0, 1, some "i2", "ref2", 0, 1⟩ "A" "B"
    (by decide) (by decide) (by decide) (by decide) (by decide) (by decide)

/-! ### C2 -/

/-- C2: for a one-to-many association between two resolvable classes, the
table of the "many" side (the side whose upper bound is not 1) receives
exactly one INT foreign-key column together with a foreign key referencing
the "one" side table's `id` column, never the reverse; the same placement
holds on the schema-markup route, where the update appends exactly one
nullable INT column and one foreign-key element (foreign column `id`) to
the first table whose name matches the "many" side. -/
theorem one_to_many_fk_placement :
    (∀ (ids : List (String × String)) (a : AssocTuple) (c1 c2 : String),
      pyLookup ids a.t1 = some c1 → pyLookup ids a.t2 = some c2 →
      c1 ≠ "" → c2 ≠ "" → oneToMany a.u1 a.u2 = true →
      (a.u1 = 1 →
        genAssocStatements ids a =
          [alterAddCol c2 (fkColName a.n1 c1), alterAddFK c2 (fkColName a.n1 c1) c1] ∧
        ∀ db, genAssocXml ids db a = updateDbAddFK db c2 (fkColName a.n1 c1) c1) ∧
      (a.u1 ≠ 1 →
        genAssocStatements ids a =
          [alterAddCol c1 (fkColName a.n2 c2), alterAddFK c1 (fkColName a.n2 c2) c2] ∧
        ∀ db, genAssocXml ids db a = updateDbAddFK db c1 (fkColName a.n2 c2) c2)) ∧
    (∀ (pre post : List SchemaTable) (t : SchemaTable) (col ref : String),
      (∀ u ∈ pre, u.name ≠ t.name) →
      updateDbAddFK (pre ++ t :: post) t.name col ref = pre ++ addFkTo t col ref :: post) ∧
    (∀ (t : SchemaTable) (col ref : String),
      (addFkTo t col ref).columns = t.columns ++ [⟨col, "INT", false, true⟩] ∧
      (addFkTo t col ref).fks = t.fks ++ [⟨ref, col, "id"⟩]) := by
  refine ⟨?_, ?_, ?_⟩
  · intro ids a c1 c2 h1 h2 hc1 hc2 ho
    have hm := otm_not_mtm a.u1 a.u2 ho
    constructor
    · intro hu1
      have hu1b : (a.u1 == 1) = true := by simp [hu1]
      constructor
      · simp only [genAssocStatements, h1, h2, hm, ho, hu1b]
        simp [hc1, hc2]
      · intro db
        simp only [genAssocXml, h1, h2, hm, ho, hu1b]
        simp [hc1, hc2]
    · intro hu1
      have hu1b : (a.u1 == 1) = false := by simp [hu1]
      constructor
      · simp only [genAssocStatements, h1, h2, hm, ho, hu1b]
        simp [hc1, hc2]
      · intro db
        simp only [genAssocXml, h1, h2, hm, ho, hu1b]
        simp [hc1, hc2]
  · intro pre post t col ref hpre
    induction pre with
    | nil => simp [updateDbAddFK]
    | cons u us ih =>
      have hu : u.name ≠ t.name := hpre u (by simp)
      simp only [List.cons_append, updateDbAddFK, if_neg hu]
      rw [show us.append (t :: post) = us ++ t :: post from rfl,
        ih (fun v hv => hpre v (by simp [hv]))]
  · intro t col ref
    exact ⟨rfl, rfl⟩

/-- Witness for C2: a concrete Teacher(1)–Student(unbounded) association. -/
theorem one_to_many_fk_placement_witness :
    genAssocStatements [("iT", "Teacher"), ("iS", "Student")]
        ⟨some "iT", "ref1", 0, 1, some "iS", "ref2", 0, -1⟩ =
      [alterAddCol "Student" (fkColName "ref1" "Teacher"),
       alterAddFK "Student" (fkColName "ref1" "Teacher") "Teacher"] :=
  ((one_to_many_fk_placement.1 [("iT", "Teacher"), ("iS", "Student")]
      ⟨some "iT", "ref1", 0, 1, some "iS", "ref2", 0, -1⟩ "Teacher" "Student"
      (by decide) (by decide) (by decide) (by decide) (by decide)).1 rfl).1

/-! ### C3 -/

/-- C3: an association with both upper bounds unbounded between resolvable
classes `c1`, `c2` yields exactly one join table `{c1}_{c2}_join`:
on the DDL route the single join-table `CREATE TABLE` statement, and on
the schema-markup route one appended table element with exactly the two
columns `{c1lower}_id`, `{c2lower}_id`, both part of the composite primary
key, and exactly two foreign keys referencing `c1.id` and `c2.id`. -/
theorem many_to_many_join_table :
    ∀ (ids : List (String × String)) (a : AssocTuple) (c1 c2 : String),
      pyLookup ids a.t1 = some c1 → pyLookup ids a.t2 = some c2 →
      c1 ≠ "" → c2 ≠ "" → a.u1 = -1 → a.u2 = -1 →
      genAssocStatements ids a = [joinTableSQL c1 c2] ∧
      (∀ db, genAssocXml ids db a = db ++ [joinTableXml c1 c2]) ∧
      (joinTableXml c1 c2).name = c1 ++ "_" ++ c2 ++ "_join" ∧
      (joinTableXml c1 c2).columns =
        [⟨lowerStr c1 ++ "_id", "INT", true, false⟩,
         ⟨lowerStr c2 ++ "_id", "INT", true, false⟩] ∧
      (joinTableXml c1 c2).fks =
        [⟨c1, lowerStr c1 ++ "_id", "id"⟩, ⟨c2, lowerStr c2 ++ "_id", "id"⟩] := by
  intro ids a c1 c2 h1 h2 hc1 hc2 hu1 hu2
  have hm : manyToMany a.u1 a.u2 = true := by
    simp [manyToMany, hu1, hu2]
  refine ⟨?_, ?_, rfl, rfl, rfl⟩
  · simp only [genAssocStatements, h1, h2, hm]
    simp [hc1, hc2]
  · intro db
    simp only [genAssocXml, h1, h2, hm]
    simp [hc1, hc2]

/-- Witness for C3: a concrete Author–Book many-to-many association. -/
theorem many_to_many_join_table_witness :
    genAssocStatements [("iA", "Author"), ("iB", "Book")]
        ⟨some "iA", "ref1", 0, -1, some "iB", "ref2", 0, -1⟩ =
      [joinTableSQL "Author" "Book"] :=
  (many_to_many_join_table [("iA", "Author"), ("iB", "Book")]
    ⟨some "iA", "ref1", 0, -1, some "iB", "ref2", 0, -1⟩ "Author" "Book"
    (by decide) (by decide) (by decide) (by decide) rfl rfl).1

/-! ### C4 -/

/-- What `parse_classes` maps attribute types into never carries the
primary-key marker. -/
theorem mapType_no_pk (o : Option String) :
    hasSub (upperStr (mapType o)) "PRIMARY KEY" = false := by
  cases o with
  | none => decide
  | some t =>
    by_cases h0 : t = ""
    · subst h0; decide
    · simp only [mapType, if_neg h0, typeMappingGet]
      by_cases h1 : t = "String"
      · simp only [if_pos h1]; decide
      simp only [if_neg h1]
      by_cases h2 : t = "Integer"
      · simp only [if_pos h2]; decide
      simp only [if_neg h2]
      by_cases h3 : t = "Boolean"
      · simp only [if_pos h3]; decide
      simp only [if_neg h3]
      by_cases h4 : t = "Float"
      · simp only [if_pos h4]; decide
      simp only [if_neg h4]
      by_cases h5 : t = "Double"
      · simp only [if_pos h5]; decide
      simp only [if_neg h5]
      by_cases h6 : t = "Long"
      · simp only [if_pos h6]; decide
      simp only [if_neg h6]
      by_cases h7 : t = "Date"
      · simp only [if_pos h7]; decide
      simp only [if_neg h7]
      decide

/-- C4: a parsed class with no attribute case-insensitively named `id`
gets a synthetic `("id", "INT PRIMARY KEY")` inserted at position 0 and
ends up with exactly one primary-key column; a class with such an
attribute gets the ` PRIMARY KEY` marker appended to it exactly once when
the marker is missing (case-insensitive check), and is left untouched when
the marker is already there. -/
theorem id_primary_key_handling :
    (∀ raw : List (String × Option String),
      ((raw.map (fun p => (p.1, mapType p.2))).any
          (fun a => lowerStr a.1 == "id")) = false →
      ensureId (raw.map (fun p => (p.1, mapType p.2))) =
        ("id", "INT PRIMARY KEY") :: raw.map (fun p => (p.1, mapType p.2)) ∧
      (ensureId (raw.map (fun p => (p.1, mapType p.2)))).head? =
        some ("id", "INT PRIMARY KEY") ∧
      ((ensureId (raw.map (fun p => (p.1, mapType p.2)))).filter
          (fun a => hasSub (upperStr a.2) "PRIMARY KEY")).length = 1) ∧
    (∀ attrs : List (String × String),
      (attrs.any (fun a => lowerStr a.1 == "id")) = true →
      ensureId attrs = attrs.map markIdPk) ∧
    (∀ nm ty : String, lowerStr nm = "id" →
      hasSub (lowerStr ty) "primary key" = false →
      markIdPk (nm, ty) = (nm, ty ++ " PRIMARY KEY")) ∧
    (∀ nm ty : String, hasSub (lowerStr ty) "primary key" = true →
      markIdPk (nm, ty) = (nm, ty)) := by
  refine ⟨?_, ?_, ?_, ?_⟩
  · intro raw hnone
    have hres : ensureId (raw.map (fun p => (p.1, mapType p.2))) =
        ("id", "INT PRIMARY KEY") :: raw.map (fun p => (p.1, mapType p.2)) := by
      simp [ensureId, hnone]
    refine ⟨hres, by rw [hres]; rfl, ?_⟩
    rw [hres]
    have hfil : (raw.map (fun p => (p.1, mapType p.2))).filter
        (fun a => hasSub (upperStr a.2) "PRIMARY KEY") = [] := by
      rw [List.filter_eq_nil_iff]
      intro a ha
      rcases List.mem_map.mp ha with ⟨p, _, hp⟩
      subst hp
      simp [mapType_no_pk]
    rw [List.filter_cons, hfil]
    decide
  · intro attrs hsome
    simp [ensureId, hsome]
  · intro nm ty hnm hty
    simp [markIdPk, hnm, hty]
  · intro nm ty hty
    simp [markIdPk, hty]

/-- Witness for C4 on a concrete class with no `id` attribute and a
concrete already-marked `id` attribute. -/
theorem id_primary_key_handling_witness :
    ensureId [("name", mapType (some "String"))] =
      ("id", "INT PRIMARY KEY") :: [("name", mapType (some "String"))] ∧
    markIdPk ("id", "INT PRIMARY KEY") = ("id", "INT PRIMARY KEY") ∧
    markIdPk ("Id", "INT") = ("Id", "INT PRIMARY KEY") :=
  ⟨(id_primary_key_handling.1 [("name", some "String")] (by decide)).1,
   id_primary_key_handling.2.2.2 "id" "INT PRIMARY KEY" (by decide),
   id_primary_key_handling.2.2.1 "Id" "INT" (by decide) (by decide)⟩

/-! ### C5 -/

/-- C5 counterexample: on the spec's Author/Book scenario (no role names)
the conversion emits `ref1_id`, not the claimed `author_id`: the
parser substitutes the default role name `ref1` for a missing role name,
so the `{ownerTableLower}_id` fallback never fires. -/
theorem fk_fallback_column_name_counterexample :
    generateSqlFromUmlTree authorBookUml =
      .ok [ "CREATE TABLE `Author` (\n  `id` INT PRIMARY KEY,\n  `name` VARCHAR(255) NOT NULL\n);"
          , "CREATE TABLE `Book` (\n  `id` INT PRIMARY KEY,\n  `title` VARCHAR(255) NOT NULL\n);"
          , "ALTER TABLE `Book` ADD COLUMN `ref1_id` INT;"
          , "ALTER TABLE `Book` ADD FOREIGN KEY (`ref1_id`) REFERENCES `Author`(`id`);" ] ∧
    "ALTER TABLE `Book` ADD COLUMN `author_id` INT;" ∉
      ([ "CREATE TABLE `Author` (\n  `id` INT PRIMARY KEY,\n  `name` VARCHAR(255) NOT NULL\n);"
       , "CREATE TABLE `Book` (\n  `id` INT PRIMARY KEY,\n  `title` VARCHAR(255) NOT NULL\n);"
       , "ALTER TABLE `Book` ADD COLUMN `ref1_id` INT;"
       , "ALTER TABLE `Book` ADD FOREIGN KEY (`ref1_id`) REFERENCES `Author`(`id`);" ] :
        List String) := by
  exact ⟨by rfl, by decide⟩

/-- C5 amended: an association end with no (or an empty) role name is
parsed with the substituted default role name `ref1`/`ref2` — the parsed
role names are never empty, so `generate_sql`'s `{ownerTableLower}_id`
fallback is unreachable — and hence a one-to-many association whose
"one" side is end 1 without a role name adds the column `ref1_id` to the
"many" side table, with the foreign key referencing the "one" side's `id`. -/
theorem fk_fallback_column_name_amended :
    (∀ e1 e2 : XMLElem, ∀ a : AssocTuple, readAssocEnds e1 e2 = .ok a →
      a.n1 = pyOrStr (alookup e1.attribs "name") "ref1" ∧
      a.n2 = pyOrStr (alookup e2.attribs "name") "ref2" ∧
      a.n1 ≠ "" ∧ a.n2 ≠ "") ∧
    (∀ o : Option String, o = none ∨ o = some "" → pyOrStr o "ref1" = "ref1") ∧
    (∀ n c : String, n ≠ "" → fkColName n c = n ++ "_id") ∧
    (∀ (ids : List (String × String)) (a : AssocTuple) (c1 c2 : String),
      pyLookup ids a.t1 = some c1 → pyLookup ids a.t2 = some c2 →
      c1 ≠ "" → c2 ≠ "" → oneToMany a.u1 a.u2 = true → a.u1 = 1 → a.n1 = "ref1" →
      genAssocStatements ids a =
        [alterAddCol c2 "ref1_id", alterAddFK c2 "ref1_id" c1]) := by
  refine ⟨?_, ?_, ?_, ?_⟩
  · intro e1 e2 a h
    unfold readAssocEnds at h
    cases hl1 : pyInt (alookupD e1.attribs "lower" "0") with
    | none => rw [hl1] at h; exact absurd h (by simp)
    | some l1 =>
      rw [hl1] at h
      cases hl2 : pyInt (alookupD e2.attribs "lower" "0") with
      | none => rw [hl2] at h; exact absurd h (by simp)
      | some l2 =>
        rw [hl2] at h
        simp only [Except.ok.injEq] at h
        subst h
        refine ⟨rfl, rfl, ?_, ?_⟩
        · cases ho : alookup e1.attribs "name" with
          | none => simp [pyOrStr]
          | some s =>
            by_cases hs : s = "" <;> simp [pyOrStr, hs]
        · cases ho : alookup e2.attribs "name" with
          | none => simp [pyOrStr]
          | some s =>
            by_cases hs : s = "" <;> simp [pyOrStr, hs]
  · intro o h
    rcases h with h | h <;> simp [h, pyOrStr]
  · intro n c hn
    simp [fkColName, hn]
  · intro ids a c1 c2 h1 h2 hc1 hc2 ho hu1 hn1
    have hm := otm_not_mtm a.u1 a.u2 ho
    have hu1b : (a.u1 == 1) = true := by simp [hu1]
    have hcol : fkColName a.n1 c1 = "ref1_id" := by
      rw [hn1]; rfl
    simp only [genAssocStatements, h1, h2, hm, ho, hu1b, hcol]
    simp [hc1, hc2]

/-- Witness for C5 (amended) on the Author/Book association tuple. -/
theorem fk_fallback_column_name_amended_witness :
    pyOrStr none "ref1" = "ref1" ∧
    genAssocStatements [("id_author", "Author"), ("id_book", "Book")]
        ⟨some "id_author", "ref1", 0, 1, some "id_book", "ref2", 0, -1⟩ =
      [alterAddCol "Book" "ref1_id", alterAddFK "Book" "ref1_id" "Author"] :=
  ⟨fk_fallback_column_name_amended.2.1 none (Or.inl rfl),
   fk_fallback_column_name_amended.2.2.2 [("id_author", "Author"), ("id_book", "Book")]
     ⟨some "id_author", "ref1", 0, 1, some "id_book", "ref2", 0, -1⟩ "Author" "Book"
     (by decide) (by decide) (by decide) (by decide) (by decide) rfl rfl⟩

/-! ### C6 -/

theorem ddlAssocFromMatch_canon (cmap : List (String × String)) (m : FkMatch)
    (b : UmlAssoc) (h : ddlAssocFromMatch cmap m = some b) :
    ∃ rid rn sid sn, b.ends = [⟨rid, rn, "1", "1"⟩, ⟨sid, sn, "0", "-1"⟩] := by
  unfold ddlAssocFromMatch at h
  split at h
  · split at h
    · cases h
      exact ⟨_, _, _, _, rfl⟩
    · exact absurd h (by simp)
  · exact absurd h (by simp)

theorem foldl_append_preserve {α : Type} (P : UmlAssoc → Prop)
    (f : List UmlAssoc → α → List UmlAssoc)
    (hf : ∀ acc x, (∀ a ∈ acc, P a) → ∀ a ∈ f acc x, P a) :
    ∀ (l : List α) (acc : List UmlAssoc), (∀ a ∈ acc, P a) →
      ∀ a ∈ l.foldl f acc, P a := by
  intro l
  induction l with
  | nil => intro acc hacc a ha; exact hacc a ha
  | cons x xs ih =>
    intro acc hacc a ha
    exact ih (f acc x) (hf acc x hacc) a ha

theorem foldlM_except_preserve {α : Type} (P : UmlAssoc → Prop)
    (f : List UmlAssoc → α → Except String (List UmlAssoc))
    (hf : ∀ acc x res, f acc x = .ok res → (∀ a ∈ acc, P a) → ∀ a ∈ res, P a) :
    ∀ (l : List α) (acc res : List UmlAssoc),
      l.foldlM f acc = .ok res → (∀ a ∈ acc, P a) → ∀ a ∈ res, P a := by
  intro l
  induction l with
  | nil =>
    intro acc res h hacc
    simp only [List.foldlM_nil] at h
    cases h
    exact hacc
  | cons x xs ih =>
    intro acc res h hacc
    rw [List.foldlM_cons] at h
    cases hstep : f acc x with
    | error e =>
      rw [hstep] at h
      exact absurd h (by simp [Bind.bind, Except.bind])
    | ok acc' =>
      rw [hstep] at h
      have h' : xs.foldlM f acc' = .ok res := by
        simpa [Bind.bind, Except.bind] using h
      exact ih acc' res h' (hf acc x acc' hstep hacc)

theorem fkAssocStep_canon (cmap : List (Option String × String)) (tn srcId : Option String)
    (acc2 : List UmlAssoc) (fk : XMLElem) (res : List UmlAssoc)
    (h : fkAssocStep cmap tn srcId acc2 fk = .ok res)
    (hacc : ∀ a ∈ acc2, canonEnds a) : ∀ a ∈ res, canonEnds a := by
  unfold fkAssocStep at h
  cases hsrc : srcId with
  | none =>
    simp only [hsrc, pure, Except.pure, Except.ok.injEq] at h
    subst h
    exact hacc
  | some sid =>
    cases htgt : lookupO cmap (alookup fk.attribs "targetTable") with
    | none =>
      simp only [hsrc, htgt, pure, Except.pure, Except.ok.injEq] at h
      subst h
      exact hacc
    | some tid =>
      cases href : (findallTag fk "reference").head? with
      | none =>
        simp only [hsrc, htgt, href, pure, Except.pure, Except.ok.injEq] at h
        subst h
        intro a ha
        rcases List.mem_append.mp ha with ha | ha
        · exact hacc a ha
        · rcases List.mem_singleton.mp ha with rfl
          intro e1 e2 he
          exact absurd he (by simp)
      | some r =>
        simp only [hsrc, htgt, href] at h
        cases htg : alookup fk.attribs "targetTable" with
        | none =>
          rw [htg] at h
          exact absurd h (by simp)
        | some tgtName =>
          rw [htg] at h
          cases htn : tn with
          | none =>
            rw [htn] at h
            exact absurd h (by simp)
          | some tName =>
            rw [htn] at h
            simp only [pure, Except.pure, Except.ok.injEq] at h
            subst h
            intro a ha
            rcases List.mem_append.mp ha with ha | ha
            · exact hacc a ha
            · rcases List.mem_singleton.mp ha with rfl
              intro e1 e2 he
              simp only [UmlAssoc.mk.injEq, List.cons.injEq, List.nil_eq] at he ⊢
              obtain ⟨he1, he2, -⟩ := he
              rw [← he1, ← he2]
              exact ⟨rfl, rfl, rfl, rfl⟩

/-- C6: every association reconstructed from a recovered foreign key — on
the DDL route and on the schema-markup route — carries the canonical
multiplicities: referenced ("one") side lower 1, upper 1; referencing
("many") side lower 0, upper unbounded (`-1`), whatever the original
model's multiplicities were. -/
theorem inverse_multiplicity_canonical :
    (∀ (cmap : List (String × String)) (ms : List FkMatch) (a : UmlAssoc),
      a ∈ ddlSecondPass cmap ms →
      ∃ rid rn sid sn, a.ends = [⟨rid, rn, "1", "1"⟩, ⟨sid, sn, "0", "-1"⟩]) ∧
    (∀ (root : XMLElem) (as : List UmlAssoc), xmlSecondPass root = .ok as →
      ∀ a ∈ as, canonEnds a) := by
  constructor
  · intro cmap ms a ha
    refine foldl_append_preserve
      (fun b => ∃ rid rn sid sn, b.ends = [⟨rid, rn, "1", "1"⟩, ⟨sid, sn, "0", "-1"⟩])
      _ ?_ ms [] (by simp) a ha
    intro acc m hacc b hb
    revert hb
    cases hm : ddlAssocFromMatch cmap m with
    | none => simp only [hm]; exact fun hb => hacc b hb
    | some c =>
      simp only [hm]
      intro hb
      rcases List.mem_append.mp hb with hb | hb
      · exact hacc b hb
      · rcases List.mem_singleton.mp hb with rfl
        exact ddlAssocFromMatch_canon cmap m b hm
  · intro root as h a ha
    refine foldlM_except_preserve canonEnds _ ?_ (findallTag root "table") [] as h
      (by simp) a ha
    intro acc t res hstep hacc
    exact foldlM_except_preserve canonEnds _
      (fun acc2 fk res2 h2 hacc2 => fkAssocStep_canon _ _ _ acc2 fk res2 h2 hacc2)
      (findallTag t "foreignKey") acc res hstep hacc

/-- `startsWithChars` is the prefix relation. -/
theorem startsWithChars_iff (p s : List Char) : startsWithChars p s = true ↔ p <+: s := by
  induction p generalizing s with
  | nil => simp [startsWithChars]
  | cons a ps ih =>
    cases s with
    | nil => simp [startsWithChars]
    | cons b ss =>
      rw [List.cons_prefix_cons]
      simp only [startsWithChars, Bool.and_eq_true, beq_iff_eq, ih]

/-- `hasSubChars` is the contiguous-sublist (infix) relation. -/
theorem hasSubChars_iff (p s : List Char) : hasSubChars p s = true ↔ p <:+: s := by
  induction s with
  | nil =>
    simp only [hasSubChars, List.isEmpty_iff, List.infix_nil]
  | cons c cs ih =>
    simp [hasSubChars, startsWithChars_iff, ih, List.infix_cons_iff]

/-- A string containing `BIGINT` contains `INT`. -/
theorem bigint_has_int (u : String) (h : hasSub u "BIGINT" = true) :
    hasSub u "INT" = true := by
  rw [hasSub, hasSubChars_iff] at h ⊢
  exact ((hasSubChars_iff "INT".data "BIGINT".data).mp (by decide)).trans h

/-- Witness for C6 at concrete recovered foreign keys on both routes. -/
theorem inverse_multiplicity_canonical_witness :
    (∃ rid rn sid sn,
      (⟨[⟨"id_Author", "author", "1", "1"⟩, ⟨"id_Book", "book", "0", "-1"⟩]⟩ : UmlAssoc).ends =
        [⟨rid, rn, "1", "1"⟩, ⟨sid, sn, "0", "-1"⟩]) ∧
    ((⟨"class_1", "author_ref", "1", "1"⟩ : UmlEnd).lowerB = "1" ∧
     (⟨"class_1", "author_ref", "1", "1"⟩ : UmlEnd).upperB = "1" ∧
     (⟨"class_2", "book_ref", "0", "-1"⟩ : UmlEnd).lowerB = "0" ∧
     (⟨"class_2", "book_ref", "0", "-1"⟩ : UmlEnd).upperB = "-1") :=
  ⟨inverse_multiplicity_canonical.1 [("Author", "id_Author"), ("Book", "id_Book")]
      [⟨"Book", "ref1_id", "Author", "id"⟩] _ (by decide),
   inverse_multiplicity_canonical.2 schemaXmlExample
      [⟨[⟨"class_1", "author_ref", "1", "1"⟩, ⟨"class_2", "book_ref", "0", "-1"⟩]⟩]
      (by rfl) _ (by decide) _ _ rfl⟩

/-! ### C7 -/

/-- C7 counterexample: the schema-markup path's classification (lines
406-417) matches the raw type string against upper-case needles, so the
lower-case spelling `int` classifies as String while `INT` classifies as
Integer — the two paths are not both case-insensitive. -/
theorem sql_type_classification_counterexample :
    classifyColTypeXml "int" = "String" ∧ classifyColTypeXml "INT" = "Integer" ∧
    classifyColTypeXml "int" ≠ classifyColTypeXml "INT" ∧
    toPrimDDL "int" = "Integer" := by
  refine ⟨rfl, rfl, by decide, rfl⟩

/-- C7 amended: the DDL path upper-cases the type token first, so its
classification is case-insensitive and agrees with the spec's
`toPrimitiveType` table (`BIGINT` included); the schema-markup path applies
the same substring table to the raw string, hence agrees with the DDL path
on upper-case spellings only (the counterexample shows lower-case spellings
diverge there). -/
theorem sql_type_classification_amended :
    (∀ s t : String, upperStr s = upperStr t → toPrimDDL s = toPrimDDL t) ∧
    (∀ s : String, toPrimDDL s = specToPrim s) ∧
    (∀ s : String, classifyColTypeXml (upperStr s) = toPrimDDL s) ∧
    toPrimDDL "bigint" = "Integer" ∧ toPrimDDL "BIGINT" = "Integer" := by
  refine ⟨?_, ?_, ?_, rfl, rfl⟩
  · intro s t h
    unfold toPrimDDL
    rw [h]
  · intro s
    rfl
  · intro s
    show classifyColTypeXml (upperStr s) = classifyColType (upperStr s)
    unfold classifyColTypeXml classifyColType
    cases hI : hasSub (upperStr s) "INT" with
    | true => simp [hI]
    | false =>
      have hB : hasSub (upperStr s) "BIGINT" = false := by
        cases hB : hasSub (upperStr s) "BIGINT"
        · rfl
        · exact absurd (bigint_has_int _ hB) (by simp [hI])
      simp [hI, hB]

/-- Witness for C7 (amended): two spellings of `varchar(255)`. -/
theorem sql_type_classification_amended_witness :
    toPrimDDL "varchar(255)" = toPrimDDL "VarChar(255)" :=
  sql_type_classification_amended.1 "varchar(255)" "VarChar(255)" (by decide)

/-! ### C8 -/

/-- The splitter always produces one piece more than its split count,
whatever the whitespace-skipping state and piece accumulator. -/
theorem splitGo_length (s : List Char) : ∀ (m : Bool) (cur : List Char),
    (splitGo m cur s).length = splitCount s + 1 := by
  induction s with
  | nil => intro m cur; rfl
  | cons c cs ih =>
    intro m cur
    simp only [splitGo, splitCount]
    by_cases h1 : (m && isPyWs c) = true
    · rw [if_pos h1]
      obtain ⟨-, hw⟩ : m = true ∧ isPyWs c = true := by simpa using h1
      have hnc : ¬(c = ',') := by
        intro hh
        subst hh
        exact absurd hw (by decide)
      simp [hnc, ih true cur]
    · rw [if_neg h1]
      by_cases h2 : (decide (c = ',') && !firstParenIsClose cs) = true
      · rw [if_pos h2, if_pos h2]
        simp only [List.length_cons, ih true []]
        omega
      · rw [if_neg h2, if_neg h2]
        simp only [Nat.zero_add]
        exact ih false (c :: cur)

/-- A run of non-parenthesis characters before a `)` keeps the regex
lookahead `[^()]*\)` satisfied. -/
theorem fpic_protected : ∀ (v w : List Char), (∀ c ∈ v, c ≠ '(' ∧ c ≠ ')') →
    firstParenIsClose (v ++ ')' :: w) = true := by
  intro v
  induction v with
  | nil => intro w _; rfl
  | cons c cs ih =>
    intro w h
    have hc := h c (List.mem_cons_self c cs)
    simp only [List.cons_append, firstParenIsClose, if_neg hc.1, if_neg hc.2]
    exact ih w (fun d hd => h d (List.mem_cons_of_mem c hd))

/-- No split point lies in a non-parenthesis run followed by `)`. -/
theorem splitCount_protected : ∀ (v w : List Char), (∀ c ∈ v, c ≠ '(' ∧ c ≠ ')') →
    splitCount (v ++ ')' :: w) = splitCount w := by
  intro v
  induction v with
  | nil =>
    intro w _
    simp [splitCount]
  | cons c cs ih =>
    intro w h
    have hcs := fun d hd => h d (List.mem_cons_of_mem c hd)
    simp only [List.cons_append, splitCount, List.append_eq, ih w hcs]
    by_cases hc : c = ','
    · subst hc
      simp [fpic_protected cs w hcs]
    · simp [hc]

/-- C8 counterexample: in the body `(a INT, b DECIMAL(10,2))` the comma
inside the nested parentheses of `DECIMAL(10,2)` does split — the outer
`strip('()')` also shaves the type's closing parenthesis, so the
lookahead fails and three pieces come back instead of two, truncating the
second column's type. -/
theorem ddl_split_nested_comma_counterexample :
    colDefsOf "(a INT, b DECIMAL(10,2))" = ["a INT", "b DECIMAL(10", "2"] ∧
    (colDefsOf "(a INT, b DECIMAL(10,2))").length ≠ 2 ∧
    columnsOfBody "(a INT, b DECIMAL(10,2))" = [("a", "INT"), ("b", "DECIMAL(10")] := by
  exact ⟨by decide, by decide, by decide⟩

/-- C8 amended: the splitter fires exactly on commas that are not followed
by a `)` before any other parenthesis character, so a comma inside a
nested parenthesized type specification is preserved exactly when its
closing parenthesis survives the outer `strip('()')` — in particular any
comma-free-parenthesis body such as the spec's example splits into exactly
its two column definitions, and a nested `DECIMAL(10,2)` in non-final
position stays intact, while the same type in final position is split. -/
theorem ddl_split_top_level_amended :
    colDefsOf "(`name` VARCHAR(255), `age` INT)" = ["`name` VARCHAR(255)", "`age` INT"] ∧
    colDefsOf "(a DECIMAL(10,2), b INT)" = ["a DECIMAL(10,2)", "b INT"] ∧
    (∀ v w : List Char, (∀ c ∈ v, c ≠ '(' ∧ c ≠ ')') →
      (splitTopLevel ⟨v ++ ')' :: w⟩).length = (splitTopLevel ⟨w⟩).length) := by
  refine ⟨by decide, by decide, ?_⟩
  intro v w h
  have e1 : splitTopLevel ⟨v ++ ')' :: w⟩ =
      (splitGo false [] (v ++ ')' :: w)).map (fun cs => (⟨cs⟩ : String)) := rfl
  have e2 : splitTopLevel ⟨w⟩ = (splitGo false [] w).map (fun cs => (⟨cs⟩ : String)) := rfl
  rw [e1, e2, List.length_map, List.length_map, splitGo_length, splitGo_length,
    splitCount_protected v w h]

/-- Witness for C8 (amended): the protected comma of `DECIMAL(10,2)`. -/
theorem ddl_split_top_level_amended_witness :
    (splitTopLevel ⟨"10,2".data ++ ')' :: ", b INT".data⟩).length =
      (splitTopLevel ⟨", b INT".data⟩).length :=
  ddl_split_top_level_amended.2.2 "10,2".data ", b INT".data (by decide)

/-! ### C9 -/

/-- C9: input that is not well-formed markup makes every markup-reading
conversion entry point fail as a whole — the reader runs before any model
is built, so the parse error is surfaced and no output is produced. -/
theorem malformed_markup_aborts :
    ∀ s : String, parseXML s = none →
      isError (umlToSqlScript s) = true ∧
      isError (umlToSchemaXml s) = true ∧
      isError (schemaXmlToUml s) = true := by
  intro s h
  refine ⟨?_, ?_, ?_⟩ <;>
    simp [umlToSqlScript, umlToSchemaXml, schemaXmlToUml, h, isError]

/-- Witness for C9: markup with an unterminated tag fails all three
markup-reading entry points. -/
theorem malformed_markup_aborts_witness :
    parseXML "<uml:Model><packagedElement</uml:Model>" = none ∧
    isError (umlToSqlScript "<uml:Model><packagedElement</uml:Model>") = true ∧
    isError (umlToSchemaXml "<uml:Model><packagedElement</uml:Model>") = true ∧
    isError (schemaXmlToUml "<uml:Model><packagedElement</uml:Model>") = true := by
  have h : parseXML "<uml:Model><packagedElement</uml:Model>" = none := by rfl
  exact ⟨h, (malformed_markup_aborts _ h).1, (malformed_markup_aborts _ h).2.1,
    (malformed_markup_aborts _ h).2.2⟩

/-! ### C10 -/

/-- The element-level condition for the association loop to run. -/
theorem processAssocElem_error (e e1 e2 : XMLElem)
    (htag : (strEndsWith e.tag "packagedElement" &&
      (getAttrib e "type" == some "uml:Association")) = true)
    (hends : findallTag e "ownedEnd" = [e1, e2])
    (hbad : pyInt (alookupD e1.attribs "lower" "0") = none ∨
      pyInt (alookupD e2.attribs "lower" "0") = none) :
    ∃ msg, processAssocElem e = .error msg := by
  unfold processAssocElem
  rw [hends]
  simp only [htag, if_true]
  unfold readAssocEnds
  rcases hbad with hb | hb
  · simp [hb, Except.map]
  · cases h1 : pyInt (alookupD e1.attribs "lower" "0") with
    | none => simp [h1, Except.map]
    | some l1 => simp [h1, hb, Except.map]

theorem assocStep_error (acc : List AssocTuple) (e : XMLElem) (m : String)
    (h : processAssocElem e = .error m) : assocStep acc e = .error m := by
  simp [assocStep, h, Bind.bind, Except.bind]

theorem foldlM_assoc_error : ∀ (l : List XMLElem) (acc : List AssocTuple),
    (∃ e ∈ l, ∃ m, processAssocElem e = .error m) →
    ∃ m, l.foldlM assocStep acc = .error m := by
  intro l
  induction l with
  | nil =>
    intro acc h
    rcases h with ⟨e, he, -⟩
    exact absurd he (List.not_mem_nil e)
  | cons x xs ih =>
    intro acc h
    rw [List.foldlM_cons]
    cases hx : assocStep acc x with
    | error m => exact ⟨m, by simp [hx, Bind.bind, Except.bind]⟩
    | ok acc' =>
      rcases h with ⟨e, he, m, hm⟩
      rcases List.mem_cons.mp he with rfl | he'
      · exact absurd (assocStep_error acc e m hm) (by simp [hx])
      · rcases ih acc' ⟨e, he', m, hm⟩ with ⟨m', hm'⟩
        exact ⟨m', by simp [hx, Bind.bind, Except.bind, hm']⟩

/-- C10: an association end whose `lower` attribute is present but not an
integer literal makes the exchange-format parse raise, aborting the whole
conversion (both the DDL route and the schema-markup route) with no
output; by contrast a non-digit `upper` attribute on an end degrades to
the unbounded sentinel `-1` and the element still parses. -/
theorem bad_lower_bound_aborts :
    (∀ (root e e1 e2 : XMLElem),
      e ∈ iterAll root →
      (strEndsWith e.tag "packagedElement" &&
        (getAttrib e "type" == some "uml:Association")) = true →
      findallTag e "ownedEnd" = [e1, e2] →
      (pyInt (alookupD e1.attribs "lower" "0") = none ∨
       pyInt (alookupD e2.attribs "lower" "0") = none) →
      ∃ msg, parseAssociations root = .error msg ∧
        generateSqlFromUmlTree root = .error msg ∧
        generateSqlXmlFromUmlTree root = .error msg) ∧
    (∀ (e e1 e2 : XMLElem) (l1 l2 : Int),
      (strEndsWith e.tag "packagedElement" &&
        (getAttrib e "type" == some "uml:Association")) = true →
      findallTag e "ownedEnd" = [e1, e2] →
      pyInt (alookupD e1.attribs "lower" "0") = some l1 →
      pyInt (alookupD e2.attribs "lower" "0") = some l2 →
      isdigitStr (alookupD e1.attribs "upper" "1") = false →
      ∃ a, processAssocElem e = .ok (some a) ∧ a.u1 = -1 ∧ a.l1 = l1) := by
  constructor
  · intro root e e1 e2 hmem htag hends hbad
    rcases processAssocElem_error e e1 e2 htag hends hbad with ⟨m0, hm0⟩
    rcases foldlM_assoc_error (iterAll root) [] ⟨e, hmem, m0, hm0⟩ with ⟨msg, hmsg⟩
    have hp : parseAssociations root = .error msg := hmsg
    refine ⟨msg, hp, ?_, ?_⟩
    · simp [generateSqlFromUmlTree, hp, Bind.bind, Except.bind]
    · simp [generateSqlXmlFromUmlTree, hp, Bind.bind, Except.bind]
  · intro e e1 e2 l1 l2 htag hends h1 h2 hup
    unfold processAssocElem
    rw [hends]
    simp only [htag, if_true]
    unfold readAssocEnds
    simp only [h1, h2, hup, if_false, Bool.false_eq_true, Except.map]
    exact ⟨_, rfl, rfl, rfl⟩

/-- Witness for C10: the bad `lower` aborts the whole conversion, while a
non-digit `upper` parses to the unbounded sentinel. -/
theorem bad_lower_bound_aborts_witness :
    (∃ msg, parseAssociations badLowerUml = .error msg ∧
      generateSqlFromUmlTree badLowerUml = .error msg ∧
      generateSqlXmlFromUmlTree badLowerUml = .error msg) ∧
    (∃ a, processAssocElem starUpperAssoc = .ok (some a) ∧ a.u1 = -1 ∧ a.l1 = 0) :=
  ⟨bad_lower_bound_aborts.1 badLowerUml badLowerAssoc
      (.mk "ownedEnd" [("type", "a"), ("lower", "abc")] [])
      (.mk "ownedEnd" [("type", "b")] [])
      (by simp [badLowerUml, badLowerAssoc, iterAll, iterChildren])
      (by decide) (by rfl) (Or.inl (by decide)),
   bad_lower_bound_aborts.2 starUpperAssoc
      (.mk "ownedEnd" [("type", "a"), ("upper", "*")] [])
      (.mk "ownedEnd" [("type", "b")] []) 0 0
      (by decide) (by rfl) (by decide) (by decide) (by decide)⟩

end UmlSql
